import Mathlib

/-!
Verification of the retro music tracker audio core.

Shallow embedding conventions:
* JavaScript numbers are modelled as rationals (`ℚ`) where fractional values
  can occur, as `ℤ` for indices that may be negative before validation, and as
  `ℕ` for counts the repository only ever uses as non-negative integers.
  Every rational is a finite number, so `Number.isFinite` is identically true
  in the model.
* A thrown `Error` is modelled as `Except.error` carrying the message;
  `undefined` array reads are modelled with `Option`.
* Web Audio side effects (oscillator creation) are modelled by recording the
  scheduled note events; the wall clock (`audioContext.currentTime`) is passed
  explicitly as a parameter `now`.
-/

namespace Music

/-- The JavaScript emptiness check of the constructors (empty or
whitespace-only string): the string has no non-whitespace character.  (`String.trim` itself is implemented by
well-founded recursion in Lean and does not reduce in the kernel, so the
equivalent character-list formulation is used.) -/
def jsBlank (s : String) : Bool :=
  s.data.all Char.isWhitespace

/-- `Note` (src/src/domain/Note.ts): immutable value object. -/
structure Note where
  pitch : String
  duration : ℚ
  channel : ℤ
  deriving DecidableEq

/-- The `Note` constructor with its validation checks. -/
def Note.make (pitch : String) (duration : ℚ) (channel : ℤ) : Except String Note :=
  if jsBlank pitch then .error "Pitch cannot be empty"
  else if duration ≤ 0 then .error "Duration must be positive"
  else if channel < 0 then .error "Channel must be non-negative"
  else .ok ⟨pitch, duration, channel⟩

/-- `Note.equals`. -/
def Note.equals (a b : Note) : Bool :=
  a.pitch == b.pitch && a.duration == b.duration && a.channel == b.channel

/-- `Step` (src/src/domain/Step.ts): a position in a pattern with its notes. -/
structure Step where
  position : ℤ
  notes : List Note
  deriving DecidableEq

/-- The `Step` constructor with its validation check. -/
def Step.make (position : ℤ) (notes : List Note) : Except String Step :=
  if position < 0 then .error "Position must be non-negative"
  else .ok ⟨position, notes⟩

/-- `Step.addNote`: appends the note (`[...this.notes, note]`). -/
def Step.addNote (st : Step) (note : Note) : Step :=
  ⟨st.position, st.notes ++ [note]⟩

/-- `Step.removeNote`: filters out notes equal to the given one. -/
def Step.removeNote (st : Step) (noteToRemove : Note) : Step :=
  ⟨st.position, st.notes.filter (fun n => !(n.equals noteToRemove))⟩

/-- `Step.hasNoteForChannel`. -/
def Step.hasNoteForChannel (st : Step) (channel : ℤ) : Bool :=
  st.notes.any (fun n => n.channel == channel)

/-- `Step.getNoteForChannel`: first note on the channel, if any. -/
def Step.getNoteForChannel (st : Step) (channel : ℤ) : Option Note :=
  st.notes.find? (fun n => n.channel == channel)

/-- `Step.isEmpty`. -/
def Step.isEmpty (st : Step) : Bool :=
  st.notes.isEmpty

/-- `Step.removeNoteAtChannel`. -/
def Step.removeNoteAtChannel (st : Step) (channel : ℤ) : Step :=
  ⟨st.position, st.notes.filter (fun n => n.channel != channel)⟩

/-- `Pattern` (src/src/domain/Pattern.ts). -/
structure Pattern where
  id : String
  name : String
  stepCount : ℕ
  steps : List Step
  deriving DecidableEq

/-- The default steps built by the `Pattern` constructor when no explicit
steps array is supplied: `new Step(i)` for `i < stepCount`. -/
def defaultSteps (stepCount : ℕ) : List Step :=
  (List.range stepCount).map (fun (i : ℕ) => ⟨(i : ℤ), []⟩)

/-- The `Pattern` constructor.  Note that an explicitly supplied steps array
is stored as given: the constructor validates only `id`, `name` and
`stepCount`, not the length or positions of `steps`. -/
def Pattern.make (id name : String) (stepCount : ℕ) (steps : Option (List Step)) :
    Except String Pattern :=
  if jsBlank id then .error "Pattern id cannot be empty"
  else if jsBlank name then .error "Pattern name cannot be empty"
  else if stepCount = 0 then .error "Step count must be positive"
  else
    match steps with
    | some s => .ok ⟨id, name, stepCount, s⟩
    | none => .ok ⟨id, name, stepCount, defaultSteps stepCount⟩

/-- `Pattern.getStep`: bounds check against `stepCount`, then the raw array
read `this.steps[position]`, which yields `undefined` (`none`) when the
stored array is shorter than `stepCount`. -/
def Pattern.getStep (p : Pattern) (position : ℤ) : Except String (Option Step) :=
  if position < 0 ∨ (p.stepCount : ℤ) ≤ position then .error "Step position out of bounds"
  else .ok (p.steps.get? position.toNat)

/-- `Pattern.getAllSteps`. -/
def Pattern.getAllSteps (p : Pattern) : List Step :=
  p.steps

/-- `Pattern.addNoteAtStep`: bounds check, `this.steps[stepPosition].addNote(note)`
(a `TypeError` when that slot is `undefined`), then the copy-and-set rebuild
through the `Pattern` constructor. -/
def Pattern.addNoteAtStep (p : Pattern) (stepPosition : ℤ) (note : Note) :
    Except String Pattern :=
  if stepPosition < 0 ∨ (p.stepCount : ℤ) ≤ stepPosition then
    .error "Step position out of bounds"
  else
    match p.steps.get? stepPosition.toNat with
    | none => .error "TypeError: undefined step"
    | some st =>
        Pattern.make p.id p.name p.stepCount
          (some (p.steps.set stepPosition.toNat (st.addNote note)))

/-- `Pattern.removeNoteAtStep`. -/
def Pattern.removeNoteAtStep (p : Pattern) (stepPosition : ℤ) (channel : ℤ) :
    Except String Pattern :=
  if stepPosition < 0 ∨ (p.stepCount : ℤ) ≤ stepPosition then
    .error "Step position out of bounds"
  else
    match p.steps.get? stepPosition.toNat with
    | none => .error "TypeError: undefined step"
    | some st =>
        Pattern.make p.id p.name p.stepCount
          (some (p.steps.set stepPosition.toNat (st.removeNoteAtChannel channel)))

/-- `Pattern.isEmpty`. -/
def Pattern.isEmpty (p : Pattern) : Bool :=
  p.steps.all (fun st => st.isEmpty)

/-- `PatternEntry` (src/src/domain/Song.ts). -/
structure PatternEntry where
  patternId : String
  «repeat» : ℚ
  deriving DecidableEq

/-- The `PatternEntry` constructor with its validation checks. -/
def PatternEntry.make (patternId : String) («repeat» : ℚ) : Except String PatternEntry :=
  if jsBlank patternId then .error "Pattern id cannot be empty"
  else if «repeat» ≤ 0 then .error "Repeat must be positive"
  else .ok ⟨patternId, «repeat»⟩

/-- `Song` (src/src/domain/Song.ts). -/
structure Song where
  id : String
  name : String
  bpm : ℚ
  repeatCount : ℚ
  patternSequence : List PatternEntry
  deriving DecidableEq

/-- The `Song` constructor.  The source check is
`repeatCount <= 0 || !Number.isFinite(repeatCount)`; every rational is
finite, so the second disjunct is identically false in the model.  Note the
constructor accepts an empty `patternSequence`. -/
def Song.make (id name : String) (bpm repeatCount : ℚ)
    (patternSequence : List PatternEntry) : Except String Song :=
  if jsBlank id then .error "Song id cannot be empty"
  else if jsBlank name then .error "Song name cannot be empty"
  else if bpm ≤ 0 then .error "BPM must be positive"
  else if repeatCount ≤ 0 then .error "Repeat count must be positive and finite"
  else .ok ⟨id, name, bpm, repeatCount, patternSequence⟩

/-- `Song.isEmpty`. -/
def Song.isEmpty (s : Song) : Bool :=
  s.patternSequence.isEmpty

/-- `SongComposer.validateFiniteLoop` (src/src/usecases/SongComposer.ts):
non-empty sequence, positive (finite) repeat count. -/
def SongComposer.validateFiniteLoop (s : Song) : Bool :=
  decide (0 < s.patternSequence.length) && decide (0 < s.repeatCount)

/-- `PatternEditor` (src/src/usecases/PatternEditor.ts): mutable wrapper
around the immutable `Pattern`. -/
structure PatternEditor where
  currentPattern : Pattern
  maxChannels : ℤ
  deriving DecidableEq

/-- `PatternEditor.validateChannelIndex`. -/
def PatternEditor.validateChannelIndex (ed : PatternEditor) (channelIndex : ℤ) :
    Except String Unit :=
  if ed.maxChannels ≤ channelIndex then .error "Channel exceeds pattern channel limit"
  else if channelIndex < 0 then .error "Channel is negative"
  else .ok ()

/-- `PatternEditor.validateStepIndex`. -/
def PatternEditor.validateStepIndex (ed : PatternEditor) (stepIndex : ℤ) :
    Except String Unit :=
  if (ed.currentPattern.stepCount : ℤ) ≤ stepIndex then .error "Step is out of bounds"
  else if stepIndex < 0 then .error "Step is negative"
  else .ok ()

/-- `PatternEditor.addNote`: validates indices, rebuilds the note on the given
channel through the `Note` constructor, removes any existing note at that
channel, appends the new note, and rebuilds the pattern. -/
def PatternEditor.addNote (ed : PatternEditor) (stepIndex channelIndex : ℤ)
    (note : Note) : Except String PatternEditor :=
  match ed.validateChannelIndex channelIndex with
  | .error e => .error e
  | .ok _ =>
    match ed.validateStepIndex stepIndex with
    | .error e => .error e
    | .ok _ =>
      match Note.make note.pitch note.duration channelIndex with
      | .error e => .error e
      | .ok noteWithChannel =>
        match ed.currentPattern.getStep stepIndex with
        | .error e => .error e
        | .ok none => .error "TypeError: undefined step"
        | .ok (some st) =>
            match Pattern.make ed.currentPattern.id ed.currentPattern.name
                ed.currentPattern.stepCount
                (some (ed.currentPattern.getAllSteps.set stepIndex.toNat
                  ((st.removeNoteAtChannel channelIndex).addNote noteWithChannel))) with
            | .error e => .error e
            | .ok p => .ok ⟨p, ed.maxChannels⟩

/-- `PatternEditor.removeNote`. -/
def PatternEditor.removeNote (ed : PatternEditor) (stepIndex channelIndex : ℤ) :
    Except String PatternEditor :=
  match ed.validateChannelIndex channelIndex with
  | .error e => .error e
  | .ok _ =>
    match ed.validateStepIndex stepIndex with
    | .error e => .error e
    | .ok _ =>
      match ed.currentPattern.getStep stepIndex with
      | .error e => .error e
      | .ok none => .error "TypeError: undefined step"
      | .ok (some st) =>
          match Pattern.make ed.currentPattern.id ed.currentPattern.name
              ed.currentPattern.stepCount
              (some (ed.currentPattern.getAllSteps.set stepIndex.toNat
                (st.removeNoteAtChannel channelIndex))) with
          | .error e => .error e
          | .ok p => .ok ⟨p, ed.maxChannels⟩

/-! ## PlaybackEngine (src/src/infrastructure/audio/PlaybackEngine.ts) -/

/-- `PlaybackState`. -/
inductive PlaybackState where
  | stopped
  | playing
  | paused
  deriving DecidableEq

/-- One note scheduled on the audio context: the observable effect of the
private `playNote(note, noteTime)` call. -/
structure ScheduledNote where
  note : Note
  time : ℚ
  deriving DecidableEq

/-- The mutable fields of `PlaybackEngine`.  `scheduleIntervalSet` models
`scheduleInterval !== null`; `onCompleteSet` models
`onCompleteCallback !== null`. -/
structure PlaybackEngine where
  state : PlaybackState
  currentPattern : Option Pattern
  currentSong : Option Song
  patternMap : List (String × Pattern)
  bpm : ℚ
  currentStep : ℕ
  startTime : ℚ
  pauseTime : ℚ
  scheduleIntervalSet : Bool
  totalLoops : ℚ
  currentLoop : ℚ
  onCompleteSet : Bool
  deriving DecidableEq

/-- The engine as built by `new PlaybackEngine(audioContext)`. -/
def PlaybackEngine.new : PlaybackEngine :=
  ⟨.stopped, none, none, [], 120, 0, 0, 0, false, 1, 0, false⟩

/-- `getStepDuration`: `(60 / this.bpm) / 4`. -/
def PlaybackEngine.getStepDuration (e : PlaybackEngine) : ℚ :=
  60 / e.bpm / 4

/-- `getNextNoteTime`: `this.startTime + this.currentStep * stepDuration`. -/
def PlaybackEngine.getNextNoteTime (e : PlaybackEngine) : ℚ :=
  e.startTime + (e.currentStep : ℚ) * e.getStepDuration

/-- `isPlaying`. -/
def PlaybackEngine.isPlaying (e : PlaybackEngine) : Bool :=
  e.state == .playing

/-- `isPaused`. -/
def PlaybackEngine.isPaused (e : PlaybackEngine) : Bool :=
  e.state == .paused

/-- `getCurrentStep`. -/
def PlaybackEngine.getCurrentStep (e : PlaybackEngine) : ℕ :=
  e.currentStep

/-- `getTotalLoops`. -/
def PlaybackEngine.getTotalLoops (e : PlaybackEngine) : ℚ :=
  e.totalLoops

/-- `stop`: clears the timer, resets playhead and loop counter, clears the
pattern references and the lookup table, transitions to `stopped`.  A total
function: the source body contains no throwing operation. -/
def PlaybackEngine.stop (e : PlaybackEngine) : PlaybackEngine :=
  { e with
    scheduleIntervalSet := false
    state := .stopped
    currentStep := 0
    currentLoop := 0
    currentPattern := none
    currentSong := none
    patternMap := [] }

/-- `pause`: no-op unless playing; clears the timer, records `pauseTime`,
transitions to `paused`. -/
def PlaybackEngine.pause (e : PlaybackEngine) (now : ℚ) : PlaybackEngine :=
  if e.state ≠ .playing then e
  else
    { e with scheduleIntervalSet := false, pauseTime := now, state := .paused }

/-- `onComplete(callback)`. -/
def PlaybackEngine.onComplete (e : PlaybackEngine) : PlaybackEngine :=
  { e with onCompleteSet := true }

/-- `updatePattern`: hot swap of the current pattern, plus the map entry when
a song is playing. -/
def PlaybackEngine.updatePattern (e : PlaybackEngine) (pattern : Pattern) :
    PlaybackEngine :=
  let e := { e with currentPattern := some pattern }
  if e.currentSong.isSome ∧ (e.patternMap.any (fun kv => kv.1 == pattern.id)) then
    { e with
      patternMap := e.patternMap.map
        (fun kv => if kv.1 == pattern.id then (kv.1, pattern) else kv) }
  else e

/-- `handleSongAdvance`: increments the song loop counter; on completion,
stops and reports whether the completion callback fires. -/
def PlaybackEngine.handleSongAdvance (e : PlaybackEngine) : PlaybackEngine × Bool :=
  match e.currentSong with
  | none => (e, false)
  | some _ =>
      let e1 := { e with currentLoop := e.currentLoop + 1 }
      if e1.totalLoops ≤ e1.currentLoop then (e1.stop, e1.onCompleteSet)
      else (e1, false)

/-- How one invocation of `scheduleNotes` ended: the while-loop condition
became false (`completed`), the fuel ran out with the condition still true
(`fuelExhausted`, i.e. the concrete loop runs longer than the fuel), or a
JavaScript exception escaped (`crashed`). -/
inductive TickOutcome where
  | completed
  | fuelExhausted
  | crashed
  deriving DecidableEq

/-- Result of one `scheduleNotes` invocation: the engine state, the notes
scheduled on the audio context, how the loop ended, and whether the
completion callback fired during the invocation. -/
structure TickResult where
  engine : PlaybackEngine
  events : List ScheduledNote
  outcome : TickOutcome
  completeFired : Bool
  deriving DecidableEq

/-- The body of the `while (this.getNextNoteTime() < scheduleUntil)` loop of
`scheduleNotes`, with an explicit fuel bound.  The source has no iteration
bound whatsoever; `fuelExhausted` witnesses that the source loop performs
more iterations than the given fuel. -/
def scheduleNotesGo (scheduleUntil : ℚ) :
    ℕ → PlaybackEngine → List ScheduledNote → Bool → TickResult
  | 0, e, events, fired =>
    if e.getNextNoteTime < scheduleUntil then ⟨e, events, .fuelExhausted, fired⟩
    else ⟨e, events, .completed, fired⟩
  | fuel + 1, e, events, fired =>
    if e.getNextNoteTime < scheduleUntil then
      match e.currentPattern with
        | none => ⟨e, events, .crashed, fired⟩
        | some pat =>
          match pat.getStep (e.currentStep : ℤ) with
          | .error _ => ⟨e, events, .crashed, fired⟩
          | .ok none => ⟨e, events, .crashed, fired⟩
          | .ok (some st) =>
              let noteTime := e.getNextNoteTime
              let events := events ++ st.notes.map (fun n => ⟨n, noteTime⟩)
              let e1 := { e with currentStep := e.currentStep + 1 }
              if pat.stepCount ≤ e1.currentStep then
                let e2 := { e1 with currentStep := 0 }
                match e2.currentSong with
                | some _ =>
                    let r := e2.handleSongAdvance
                    scheduleNotesGo scheduleUntil fuel r.1 events (fired || r.2)
                | none =>
                    scheduleNotesGo scheduleUntil fuel
                      { e2 with currentLoop := e2.currentLoop + 1 } events fired
              else
                scheduleNotesGo scheduleUntil fuel e1 events fired
    else ⟨e, events, .completed, fired⟩

/-- `scheduleNotes`: early return when there is no current pattern, then the
look-ahead loop with `scheduleUntil = now + SCHEDULE_AHEAD_TIME` (100 ms). -/
def PlaybackEngine.scheduleNotes (e : PlaybackEngine) (now : ℚ) (fuel : ℕ) :
    TickResult :=
  match e.currentPattern with
  | none => ⟨e, [], .completed, false⟩
  | some _ => scheduleNotesGo (now + 1 / 10) fuel e [] false

/-- `schedulePlayback`: no-op when the interval timer is already registered;
otherwise registers it and performs the initial synchronous `scheduleNotes`
call. -/
def PlaybackEngine.schedulePlayback (e : PlaybackEngine) (now : ℚ) (fuel : ℕ) :
    TickResult :=
  if e.scheduleIntervalSet then ⟨e, [], .completed, false⟩
  else PlaybackEngine.scheduleNotes { e with scheduleIntervalSet := true } now fuel

/-- One firing of the 25 ms interval timer: runs only while the timer is
registered, and the callback returns early unless the engine is playing with
a current pattern. -/
def PlaybackEngine.intervalTick (e : PlaybackEngine) (now : ℚ) (fuel : ℕ) :
    TickResult :=
  if e.scheduleIntervalSet ∧ e.state = .playing ∧ e.currentPattern.isSome then
    e.scheduleNotes now fuel
  else ⟨e, [], .completed, false⟩

/-- `start(pattern, bpm)`: no-op when already playing; otherwise resets the
playhead and loop counters, captures `startTime = now`, enters `playing` and
begins scheduling. -/
def PlaybackEngine.start (e : PlaybackEngine) (pattern : Pattern) (bpm : ℚ)
    (now : ℚ) (fuel : ℕ) : TickResult :=
  if e.state = .playing then ⟨e, [], .completed, false⟩
  else
    let e1 := { e with
      currentPattern := some pattern
      bpm := bpm
      currentStep := 0
      currentLoop := 0
      totalLoops := 1
      startTime := now
      state := .playing }
    e1.schedulePlayback now fuel

/-- `Map.set` semantics for the pattern lookup table: replace in place when
the key exists, append otherwise. -/
def mapSet (m : List (String × Pattern)) (k : String) (v : Pattern) :
    List (String × Pattern) :=
  if m.any (fun kv => kv.1 == k) then
    m.map (fun kv => if kv.1 == k then (k, v) else kv)
  else m ++ [(k, v)]

/-- `Map.get` (with the `|| null` coercion of the source). -/
def mapGet (m : List (String × Pattern)) (k : String) : Option Pattern :=
  (m.find? (fun kv => kv.1 == k)).map (fun kv => kv.2)

/-- `startSong(song, patterns)`: no-op when already playing; otherwise — with
no validation of any kind — installs the song, builds the lookup table,
selects the first pattern of the sequence when the sequence is non-empty
(leaving `currentPattern` untouched when it is empty), enters `playing` and
begins scheduling. -/
def PlaybackEngine.startSong (e : PlaybackEngine) (song : Song)
    (patterns : List Pattern) (now : ℚ) (fuel : ℕ) : TickResult :=
  if e.state = .playing then ⟨e, [], .completed, false⟩
  else
    let pm := patterns.foldl (fun m p => mapSet m p.id p) []
    let e1 := { e with
      currentSong := some song
      bpm := song.bpm
      totalLoops := song.repeatCount
      currentLoop := 0
      currentStep := 0
      startTime := now
      state := .playing
      patternMap := pm }
    let e2 :=
      match song.patternSequence with
      | [] => e1
      | entry :: _ => { e1 with currentPattern := mapGet pm entry.patternId }
    e2.schedulePlayback now fuel

/-- `resume`: no-op unless paused; shifts `startTime` forward by the pause
duration, enters `playing` and restarts scheduling. -/
def PlaybackEngine.resume (e : PlaybackEngine) (now : ℚ) (fuel : ℕ) : TickResult :=
  if e.state ≠ .paused then ⟨e, [], .completed, false⟩
  else
    let pauseDuration := now - e.pauseTime
    let e1 := { e with startTime := e.startTime + pauseDuration, state := .playing }
    e1.schedulePlayback now fuel

/-- A playback session fragment: fold the interval timer over a list of
tick times, accumulating the scheduled notes and whether the completion
callback fired. -/
def runTicks (fuel : ℕ) (start : PlaybackEngine) (times : List ℚ) :
    PlaybackEngine × List ScheduledNote × Bool :=
  times.foldl
    (fun acc t =>
      match acc with
      | (e, evs, fired) =>
          let r := e.intervalTick t fuel
          (r.engine, evs ++ r.events, fired || r.completeFired))
    (start, [], false)

/-! ## AudioExporter (src/src/infrastructure/export/AudioExporter.ts)

The exporter works on its own song schema (`@/domain/models/types`): patterns
carry per-channel step slots with an optional note, and the song carries a
plain `patternOrder` list of pattern ids with no repeat fields. -/

namespace AudioExporter

/-- Export-side note: `pitch: number | null`. -/
structure XNote where
  pitch : Option ℚ
  duration : ℚ
  volume : ℚ
  deriving DecidableEq

/-- Waveform type. -/
inductive Waveform where
  | square
  | triangle
  | sawtooth
  | sine
  deriving DecidableEq

/-- One step slot of an export-side channel. -/
structure StepSlot where
  note : Option XNote
  deriving DecidableEq

/-- Export-side channel. -/
structure XChannel where
  waveform : Waveform
  steps : List StepSlot
  deriving DecidableEq

/-- Export-side pattern. -/
structure XPattern where
  id : String
  name : String
  channels : List XChannel
  stepsCount : ℕ
  deriving DecidableEq

/-- Export-side song. -/
structure XSong where
  title : String
  bpm : ℚ
  channelCount : ℕ
  stepsPerBeat : ℚ
  patterns : List XPattern
  patternOrder : List String
  deriving DecidableEq

/-- `AudioExportOptions`. -/
structure AudioExportOptions where
  sampleRate : ℕ
  bitDepth : ℕ
  audioChannels : ℕ
  deriving DecidableEq

/-- `getTotalSteps`: `patternOrder.reduce((total, id) => total + (pattern?.stepsCount ?? 0), 0)`. -/
def getTotalSteps (song : XSong) : ℕ :=
  song.patternOrder.foldl
    (fun total patternId =>
      total +
        (match song.patterns.find? (fun p => p.id == patternId) with
         | some p => p.stepsCount
         | none => 0))
    0

/-- `calculateDuration`: `totalSteps × (1/stepsPerBeat) / bpm × 60`. -/
def calculateDuration (song : XSong) : ℚ :=
  let totalSteps := getTotalSteps song
  let beatsPerStep := 1 / song.stepsPerBeat
  let totalBeats := (totalSteps : ℚ) * beatsPerStep
  totalBeats / song.bpm * 60

/-- A `DataView` over a zero-initialised `ArrayBuffer`: byte value at each
offset. -/
def DataView : Type := ℕ → ℕ

/-- Write one byte (`setUint8`; JavaScript stores the value modulo 256). -/
def DataView.setByte (v : DataView) (off : ℕ) (b : ℕ) : DataView :=
  fun i => if i = off then b % 256 else v i

/-- `setUint8` with a JavaScript (possibly negative) integer argument. -/
def DataView.setUint8 (v : DataView) (off : ℕ) (value : ℤ) : DataView :=
  v.setByte off (value.emod 256).toNat

/-- `setUint16(off, value, true)`: little-endian two's-complement storage
modulo 2^16. -/
def DataView.setUint16 (v : DataView) (off : ℕ) (value : ℤ) : DataView :=
  let m := (value.emod 65536).toNat
  (v.setByte off (m % 256)).setByte (off + 1) (m / 256 % 256)

/-- `setUint32(off, value, true)`: little-endian storage modulo 2^32. -/
def DataView.setUint32 (v : DataView) (off : ℕ) (value : ℤ) : DataView :=
  let m := (value.emod 4294967296).toNat
  (((v.setByte off (m % 256)).setByte (off + 1) (m / 256 % 256)).setByte
      (off + 2) (m / 65536 % 256)).setByte (off + 3) (m / 16777216 % 256)

/-- `setInt16` stores the same bytes as `setUint16`. -/
def DataView.setInt16 (v : DataView) (off : ℕ) (value : ℤ) : DataView :=
  v.setUint16 off value

/-- `setInt32` stores the same bytes as `setUint32`. -/
def DataView.setInt32 (v : DataView) (off : ℕ) (value : ℤ) : DataView :=
  v.setUint32 off value

/-- The character loop of `writeString`. -/
def writeChars (v : DataView) (off : ℕ) : List Char → DataView
  | [] => v
  | ch :: rest => writeChars (v.setByte off ch.toNat) (off + 1) rest

/-- `writeString`: one byte per character (`charCodeAt`). -/
def writeString (v : DataView) (off : ℕ) (s : String) : DataView :=
  writeChars v off s.data

/-- The per-sample body of the `createWavFile` write loop: clamp to `[-1, 1]`,
then the `switch (bitDepth)` quantisation.  The 24-bit branch reproduces the
JavaScript `& 0xff` / `>> 8` operators on the (possibly negative) quantised
value via `Int.emod` and `Int.fdiv` (arithmetic shift).  An unsupported bit
depth writes nothing (the `switch` has no default case). -/
def writeSampleAt (v : DataView) (off : ℕ) (bitDepth : ℕ) (s : ℚ) : DataView :=
  let sample := max (-1) (min 1 s)
  match bitDepth with
  | 8 => v.setUint8 off ⌊(sample + 1) * (255 / 2)⌋
  | 16 => v.setInt16 off ⌊sample * 32767⌋
  | 24 =>
      let val24 := ⌊sample * 8388607⌋
      ((v.setUint8 off (val24.emod 256)).setUint8 (off + 1)
          ((val24.fdiv 256).emod 256)).setUint8 (off + 2)
        ((val24.fdiv 65536).emod 256)
  | 32 => v.setInt32 off ⌊sample * 2147483647⌋
  | _ => v

/-- The sample loop of `createWavFile`: successive samples at
`offset += bytesPerSample`. -/
def writeSamples (v : DataView) (off bitDepth bytesPerSample : ℕ) :
    List ℚ → DataView
  | [] => v
  | s :: rest =>
      writeSamples (writeSampleAt v off bitDepth s) (off + bytesPerSample)
        bitDepth bytesPerSample rest

/-- `createWavFile(samples, options)`: the 44-byte canonical PCM header in
source order, followed by the quantised samples. -/
def createWavFile (samples : List ℚ) (options : AudioExportOptions) : DataView :=
  let bytesPerSample := options.bitDepth / 8
  let dataSize := samples.length * bytesPerSample
  let fileSize := 44 + dataSize
  let v : DataView := fun _ => 0
  let v := writeString v 0 "RIFF"
  let v := v.setUint32 4 ((fileSize : ℤ) - 8)
  let v := writeString v 8 "WAVE"
  let v := writeString v 12 "fmt "
  let v := v.setUint32 16 16
  let v := v.setUint16 20 1
  let v := v.setUint16 22 (options.audioChannels : ℤ)
  let v := v.setUint32 24 (options.sampleRate : ℤ)
  let v := v.setUint32 28 ((options.sampleRate * options.audioChannels * bytesPerSample : ℕ) : ℤ)
  let v := v.setUint16 32 ((options.audioChannels * bytesPerSample : ℕ) : ℤ)
  let v := v.setUint16 34 (options.bitDepth : ℤ)
  let v := writeString v 36 "data"
  let v := v.setUint32 40 (dataSize : ℤ)
  writeSamples v 44 options.bitDepth bytesPerSample samples

/-- Read a 16-bit little-endian value back from the view. -/
def readU16 (v : DataView) (off : ℕ) : ℕ :=
  v off + 256 * v (off + 1)

/-- Read a 32-bit little-endian value back from the view. -/
def readU32 (v : DataView) (off : ℕ) : ℕ :=
  v off + 256 * v (off + 1) + 65536 * v (off + 2) + 16777216 * v (off + 3)

/-- Read `n` consecutive bytes from the view. -/
def readBytes (v : DataView) (off n : ℕ) : List ℕ :=
  (List.range n).map (fun j => v (off + j))

/-- Specification-side byte image of one quantised sample (after the clamp to
`[-1, 1]`), per bit depth. -/
def sampleBytesSpec (bitDepth : ℕ) (s : ℚ) : List ℕ :=
  let sample := max (-1) (min 1 s)
  match bitDepth with
  | 8 => [((⌊(sample + 1) * (255 / 2)⌋ : ℤ).emod 256).toNat]
  | 16 =>
      let m := ((⌊sample * 32767⌋ : ℤ).emod 65536).toNat
      [m % 256, m / 256 % 256]
  | 24 =>
      let val24 := (⌊sample * 8388607⌋ : ℤ)
      [(val24.emod 256).toNat, ((val24.fdiv 256).emod 256).toNat,
        ((val24.fdiv 65536).emod 256).toNat]
  | 32 =>
      let m := ((⌊sample * 2147483647⌋ : ℤ).emod 4294967296).toNat
      [m % 256, m / 256 % 256, m / 65536 % 256, m / 16777216 % 256]
  | _ => []

end AudioExporter

/-! ## Specification-side predicates and concrete playback sessions -/

/-- Specification predicate: a step holds at most one note per channel. -/
def Step.uniqueChannels (st : Step) : Prop :=
  st.notes.Pairwise (fun a b => a.channel ≠ b.channel)

/-- Specification predicate: no step of the pattern holds two notes with the
same channel index. -/
def Pattern.uniqueChannels (p : Pattern) : Prop :=
  ∀ st ∈ p.steps, st.uniqueChannels

/-- Specification-side total step count of an export song: the `stepsCount`
of each pattern in play order (`patternOrder`), summed; an id that resolves
to no pattern contributes `0`. -/
def AudioExporter.playOrderSteps (song : AudioExporter.XSong) : ℕ :=
  (song.patternOrder.map
    (fun patternId =>
      match song.patterns.find? (fun p => p.id == patternId) with
      | some p => p.stepsCount
      | none => 0)).sum

/-- The example song of the duration claim: `bpm = 120`, `stepsPerBeat = 4`,
two 16-step patterns played once each. -/
def AudioExporter.c9Song : AudioExporter.XSong :=
  ⟨"Test Song", 120, 2, 4,
    [⟨"p1", "Pattern 1", [], 16⟩, ⟨"p2", "Pattern 2", [], 16⟩], ["p1", "p2"]⟩

/-- A well-formed 16-step pattern (default steps), as built by
`new Pattern('pattern-1', 'Test Pattern', 16)`. -/
def p16 : Pattern := ⟨"pattern-1", "Test Pattern", 16, defaultSteps 16⟩

/-- C1 session, step 1: `start(p16, 120)` at time `0` (includes the initial
synchronous scheduling call). -/
def c1r0 : TickResult := PlaybackEngine.new.start p16 120 0 100

/-- C1 session, step 2: the interval timer fires every 25 ms; these are the
tick times `0.025, 0.05, …, 1.775` before the playhead wraps. -/
def c1TickTimes : List ℚ := (List.range 71).map (fun k => ((k + 1 : ℕ) : ℚ) * (1 / 40))

/-- C1 session: the engine state just before the tick at `t = 1.8 s`, the
first tick after which the playhead wraps past step 15. -/
def c1Before : PlaybackEngine := (runTicks 100 c1r0.engine c1TickTimes).1

/-- The family of engine states the wrap-time scheduling loop cycles
through: playing the standalone pattern `p16` at 120 BPM with
`startTime = 0`, playhead at step `c`, loop counter `loop`. -/
@[reducible] def c1State (c : ℕ) (loop : ℚ) : PlaybackEngine :=
  ⟨.playing, some p16, none, [], 120, c, 0, 0, true, 1, loop, false⟩

/-- C2: the one note of the first pattern of the two-pattern song. -/
def noteA : Note := ⟨"A4", 1, 0⟩

/-- C2: the one note of the second pattern of the two-pattern song. -/
def noteB : Note := ⟨"B4", 1, 0⟩

/-- C2: first pattern (2 steps, `noteA` on step 0). -/
def pA : Pattern := ⟨"pA", "A", 2, [⟨0, [noteA]⟩, ⟨1, []⟩]⟩

/-- C2: second pattern (2 steps, `noteB` on step 0). -/
def pB : Pattern := ⟨"pB", "B", 2, [⟨0, [noteB]⟩, ⟨1, []⟩]⟩

/-- C2: a song whose pattern sequence has two entries (`pA` then `pB`, one
repeat each) and song-level repeat count 1. -/
def songAB : Song := ⟨"song-1", "Test", 120, 1, [⟨"pA", 1⟩, ⟨"pB", 1⟩]⟩

/-- C2 session, step 1: register the completion callback and
`startSong(songAB, [pA, pB])` at time `0`. -/
def c2r0 : TickResult :=
  (PlaybackEngine.new.onComplete).startSong songAB [pA, pB] 0 100

/-- C2 session, step 2: interval tick at `t = 0.025 s`. -/
def c2r1 : TickResult := c2r0.engine.intervalTick (1 / 40) 100

/-- C2 session, step 3: interval tick at `t = 0.05 s`, during which the first
pattern wraps. -/
def c2r2 : TickResult := c2r1.engine.intervalTick (1 / 20) 100

/-! ## Helper lemmas -/

/-- The default step list has one step per position. -/
theorem defaultSteps_length (n : ℕ) : (defaultSteps n).length = n := by
  unfold defaultSteps
  rw [List.length_map, List.length_range]

/-- Indexing into the default step list. -/
theorem defaultSteps_get (n i : ℕ) (hi : i < n) :
    (defaultSteps n).get? i = some ⟨(i : ℤ), []⟩ := by
  unfold defaultSteps
  rw [List.get?_eq_getElem?, List.getElem?_map, List.getElem?_range hi]
  rfl

/-- The sanity link between `p16` and the validated constructor. -/
theorem p16_make : Pattern.make "pattern-1" "Test Pattern" 16 none = .ok p16 := by
  rfl

/-- The sanity link between `songAB` and the validated constructor. -/
theorem songAB_make :
    Song.make "song-1" "Test" 120 1 [⟨"pA", 1⟩, ⟨"pB", 1⟩] = .ok songAB := by
  rfl

/-! ## C7 -/

/-- C7: `stop()` is idempotent: it is a total operation (the source body
cannot throw), it always leaves the engine `Stopped` with the playhead at `0`
and the pattern lookup table cleared, and applying it twice yields exactly
the state of applying it once. -/
theorem stop_idempotent_resets (e : PlaybackEngine) :
    e.stop.state = .stopped ∧ e.stop.currentStep = 0 ∧ e.stop.currentLoop = 0 ∧
    e.stop.patternMap = [] ∧ e.stop.currentPattern = none ∧
    e.stop.currentSong = none ∧ e.stop.stop = e.stop :=
  ⟨rfl, rfl, rfl, rfl, rfl, rfl, rfl⟩

/-! ## C9 -/

/-- Folding an accumulating sum is summing over the mapped list. -/
theorem foldl_add_map (l : List String) (f : String → ℕ) (init : ℕ) :
    l.foldl (fun t x => t + f x) init = init + (l.map f).sum := by
  induction l generalizing init with
  | nil => simp
  | cons x xs ih => simp [List.foldl_cons, ih]; ring

/-- The exporter total-step fold equals the play-order sum. -/
theorem getTotalSteps_eq_playOrderSteps (song : AudioExporter.XSong) :
    AudioExporter.getTotalSteps song = AudioExporter.playOrderSteps song := by
  unfold AudioExporter.getTotalSteps AudioExporter.playOrderSteps
  rw [foldl_add_map]
  simp

/-- C9: `calculateDuration(song)` equals
`totalSteps × (1/stepsPerBeat) / bpm × 60`, where `totalSteps` sums the step
counts of the pattern sequence in play order (`patternOrder`; the export song
schema has no per-entry repeat or song-level repeat field, so each play-order
occurrence is listed explicitly and counted once); in particular the example
song at `bpm = 120`, `stepsPerBeat = 4` with two 16-step patterns played once
each lasts exactly 4 seconds. -/
theorem calculateDuration_playorder_formula :
    (∀ song : AudioExporter.XSong,
      AudioExporter.calculateDuration song =
        (AudioExporter.playOrderSteps song : ℚ) * (1 / song.stepsPerBeat) /
          song.bpm * 60) ∧
    AudioExporter.calculateDuration AudioExporter.c9Song = 4 := by
  constructor
  · intro song
    unfold AudioExporter.calculateDuration
    rw [getTotalSteps_eq_playOrderSteps]
  · with_unfolding_all decide

/-! ## C5 -/

/-- C5 (amended): a `Pattern` constructed *without* an explicit steps array
holds exactly `stepCount` steps, the step at index `i` having position `i`;
`getStep` then returns a step for every position in `[0, stepCount)` and
fails exactly for the positions outside that range.  (The claim is false for
patterns built with an explicit steps array — see the counterexample.) -/
theorem pattern_default_steps_getStep_total
    (id name : String) (n : ℕ) (p : Pattern)
    (h : Pattern.make id name n none = .ok p) :
    p.steps.length = p.stepCount ∧ p.stepCount = n ∧
    (∀ i : ℕ, i < n → p.steps.get? i = some ⟨(i : ℤ), []⟩) ∧
    (∀ pos : ℤ, 0 ≤ pos → pos < (n : ℤ) → p.getStep pos = .ok (some ⟨pos, []⟩)) ∧
    (∀ pos : ℤ, pos < 0 ∨ (n : ℤ) ≤ pos →
      p.getStep pos = .error "Step position out of bounds") := by
  unfold Pattern.make at h
  split at h
  · exact Except.noConfusion h
  split at h
  · exact Except.noConfusion h
  split at h
  · exact Except.noConfusion h
  injection h with h
  subst h
  refine ⟨defaultSteps_length n, rfl, fun i hi => defaultSteps_get n i hi, ?_, ?_⟩
  · intro pos h0 hlt
    unfold Pattern.getStep
    dsimp only
    rw [if_neg (by omega)]
    have ht : pos.toNat < n := by omega
    rw [defaultSteps_get n pos.toNat ht]
    have hcast : ((pos.toNat : ℤ)) = pos := Int.toNat_of_nonneg h0
    rw [hcast]
  · intro pos hcase
    unfold Pattern.getStep
    dsimp only
    rw [if_pos hcase]

/-- C5 witness: the theorem applied to the 8-step pattern
`new Pattern('p1', 'Test', 8)`. -/
theorem pattern_default_steps_getStep_total_witness :
    (⟨"p1", "Test", 8, defaultSteps 8⟩ : Pattern).getStep 3 = .ok (some ⟨3, []⟩) :=
  (pattern_default_steps_getStep_total "p1" "Test" 8 _ (by rfl)).2.2.2.1 3
    (by norm_num) (by norm_num)

/-- C5 counterexample: the repository's own test constructs
`new Pattern('pattern-1', 'Test Pattern', 16, [step0, step4])`; the
constructor accepts the 2-element steps array, the step stored at index 1 has
position 4 (not 1), and `getStep(5)` — an in-range position — returns an
absent value rather than a `Step`. -/
theorem pattern_explicit_steps_unchecked :
    Pattern.make "pattern-1" "Test Pattern" 16
        (some [⟨0, [⟨"C4", 1, 0⟩]⟩, ⟨4, [⟨"E4", 1, 1⟩]⟩]) =
      .ok ⟨"pattern-1", "Test Pattern", 16,
        [⟨0, [⟨"C4", 1, 0⟩]⟩, ⟨4, [⟨"E4", 1, 1⟩]⟩]⟩ ∧
    (⟨"pattern-1", "Test Pattern", 16,
        [⟨0, [⟨"C4", 1, 0⟩]⟩, ⟨4, [⟨"E4", 1, 1⟩]⟩]⟩ : Pattern).steps.length = 2 ∧
    (⟨"pattern-1", "Test Pattern", 16,
        [⟨0, [⟨"C4", 1, 0⟩]⟩, ⟨4, [⟨"E4", 1, 1⟩]⟩]⟩ : Pattern).getStep 1 =
      .ok (some ⟨4, [⟨"E4", 1, 1⟩]⟩) ∧
    (⟨"pattern-1", "Test Pattern", 16,
        [⟨0, [⟨"C4", 1, 0⟩]⟩, ⟨4, [⟨"E4", 1, 1⟩]⟩]⟩ : Pattern).getStep 5 =
      .ok none := by
  refine ⟨by rfl, by rfl, by rfl, by rfl⟩

/-! ## C4 -/

/-- C4 counterexample: `Step.addNote` appends without replacing, so the
public `Pattern.addNoteAtStep` operation applied twice on channel 0 of step 0
produces a step holding two notes with the same channel index. -/
theorem addNoteAtStep_duplicate_channel :
    (⟨"p1", "Test", 2, defaultSteps 2⟩ : Pattern).addNoteAtStep 0 ⟨"C4", 1, 0⟩ =
      .ok ⟨"p1", "Test", 2, [⟨0, [⟨"C4", 1, 0⟩]⟩, ⟨1, []⟩]⟩ ∧
    (⟨"p1", "Test", 2, [⟨0, [⟨"C4", 1, 0⟩]⟩, ⟨1, []⟩]⟩ : Pattern).addNoteAtStep 0
        ⟨"E4", 1, 0⟩ =
      .ok ⟨"p1", "Test", 2, [⟨0, [⟨"C4", 1, 0⟩, ⟨"E4", 1, 0⟩]⟩, ⟨1, []⟩]⟩ ∧
    (⟨0, [⟨"C4", 1, 0⟩]⟩ : Step).addNote ⟨"E4", 1, 0⟩ =
      ⟨0, [⟨"C4", 1, 0⟩, ⟨"E4", 1, 0⟩]⟩ ∧
    (⟨0, [⟨"C4", 1, 0⟩, ⟨"E4", 1, 0⟩]⟩ : Step).hasNoteForChannel 0 = true ∧
    ¬ (⟨0, [⟨"C4", 1, 0⟩, ⟨"E4", 1, 0⟩]⟩ : Step).uniqueChannels := by
  refine ⟨by rfl, by rfl, by rfl, by rfl, ?_⟩
  intro h
  rcases List.pairwise_cons.mp h with ⟨h1, _⟩
  exact h1 ⟨"E4", 1, 0⟩ (List.mem_singleton_self _) rfl

/-- C4 (amended): the replacement semantics live one layer up, in
`PatternEditor.addNote`: it removes any existing note on the channel before
appending, so it preserves the at-most-one-note-per-channel invariant, and
afterwards the edited step's note for that channel is exactly the added note
(rebuilt on the requested channel). -/
theorem patternEditor_addNote_unique
    (ed ed' : PatternEditor) (stepIndex channelIndex : ℤ) (note : Note)
    (huniq : ed.currentPattern.uniqueChannels)
    (h : ed.addNote stepIndex channelIndex note = .ok ed') :
    ed'.currentPattern.uniqueChannels ∧
    ∃ st : Step, ed'.currentPattern.getStep stepIndex = .ok (some st) ∧
      st.getNoteForChannel channelIndex =
        some ⟨note.pitch, note.duration, channelIndex⟩ := by
  unfold PatternEditor.addNote at h
  split at h
  · exact Except.noConfusion h
  split at h
  · exact Except.noConfusion h
  split at h
  · exact Except.noConfusion h
  rename_i nwc hnote
  split at h
  · exact Except.noConfusion h
  · exact Except.noConfusion h
  rename_i st hstep
  split at h
  · exact Except.noConfusion h
  rename_i p hmk
  injection h with h
  subst h
  -- invert the Note constructor: the note is rebuilt on the requested channel
  unfold Note.make at hnote
  split at hnote
  · exact Except.noConfusion hnote
  split at hnote
  · exact Except.noConfusion hnote
  split at hnote
  · exact Except.noConfusion hnote
  injection hnote with hnote
  subst hnote
  -- invert getStep: the indexed slot of the current steps array
  unfold Pattern.getStep at hstep
  split at hstep
  · exact Except.noConfusion hstep
  rename_i hbnd
  injection hstep with hstep
  -- invert the Pattern constructor
  unfold Pattern.make at hmk
  split at hmk
  · exact Except.noConfusion hmk
  split at hmk
  · exact Except.noConfusion hmk
  split at hmk
  · exact Except.noConfusion hmk
  injection hmk with hmk
  subst hmk
  have hlen : stepIndex.toNat < ed.currentPattern.steps.length :=
    (List.get?_eq_some.mp hstep).1
  have hmem : st ∈ ed.currentPattern.steps := List.get?_mem hstep
  have hstu : st.uniqueChannels := huniq st hmem
  constructor
  · -- the invariant is preserved
    intro st' hmem'
    rcases List.mem_or_eq_of_mem_set hmem' with hold | heq
    · exact huniq st' hold
    · subst heq
      unfold Step.uniqueChannels
      show ((st.notes.filter (fun n => n.channel != channelIndex)) ++
        [(⟨note.pitch, note.duration, channelIndex⟩ : Note)]).Pairwise _
      rw [List.pairwise_append]
      refine ⟨hstu.sublist (List.filter_sublist _), by simp, ?_⟩
      intro a ha b hb
      have hane : (a.channel != channelIndex) = true := (List.mem_filter.mp ha).2
      have : a.channel ≠ channelIndex := by simpa using hane
      rcases List.mem_singleton.mp hb with rfl
      exact this
  · -- the edited slot holds the rebuilt note for the channel
    refine ⟨(st.removeNoteAtChannel channelIndex).addNote
      ⟨note.pitch, note.duration, channelIndex⟩, ?_, ?_⟩
    · unfold Pattern.getStep
      dsimp only
      rw [if_neg hbnd]
      rw [List.get?_eq_getElem?]
      simp [List.getElem?_set_self, hlen, Pattern.getAllSteps]
    · unfold Step.getNoteForChannel Step.addNote Step.removeNoteAtChannel
      dsimp only
      rw [List.find?_append]
      have hnone : (st.notes.filter (fun n => n.channel != channelIndex)).find?
          (fun n => n.channel == channelIndex) = none := by
        rw [List.find?_eq_none]
        intro x hx hpx
        have : (x.channel != channelIndex) = true := (List.mem_filter.mp hx).2
        simp at hpx this
        exact this hpx
      rw [hnone]
      simp

/-- C4 witness: the invariant theorem applied to a concrete 2-step editor. -/
theorem patternEditor_addNote_unique_witness :
    (⟨⟨"p1", "Test", 2, [⟨0, [⟨"C4", 1, 0⟩]⟩, ⟨1, []⟩]⟩, 4⟩ :
      PatternEditor).currentPattern.uniqueChannels :=
  (patternEditor_addNote_unique ⟨⟨"p1", "Test", 2, defaultSteps 2⟩, 4⟩
    ⟨⟨"p1", "Test", 2, [⟨0, [⟨"C4", 1, 0⟩]⟩, ⟨1, []⟩]⟩, 4⟩ 0 0 ⟨"C4", 1, 0⟩
    (by unfold Pattern.uniqueChannels Step.uniqueChannels; decide) (by rfl)).1

/-! ## C3 -/

/-- C3 counterexample: a `Song` with an empty pattern sequence is accepted by
the `Song` constructor, and `startSong` on it raises no error and puts the
engine in the `Playing` state. -/
theorem startSong_empty_song_enters_playing :
    Song.make "song-1" "Test Song" 120 1 [] =
      .ok ⟨"song-1", "Test Song", 120, 1, []⟩ ∧
    (PlaybackEngine.new.startSong ⟨"song-1", "Test Song", 120, 1, []⟩
        [] 0 100).engine.state = .playing ∧
    (PlaybackEngine.new.startSong ⟨"song-1", "Test Song", 120, 1, []⟩
        [] 0 100).outcome = .completed :=
  ⟨by rfl, by rfl, by rfl⟩

/-- C3 (amended): a `Song` whose repeat count is not positive (and, in
JavaScript, not finite) is rejected with a synchronously thrown validation
error by the `Song` constructor — so `startSong` can never receive one — but
`startSong` itself performs no validation: called on a song with an empty
pattern sequence it raises no error and the engine does enter the `Playing`
state (scheduling nothing); the finite-loop check for empty songs lives in
`SongComposer.validateFiniteLoop`, which returns `false` for them. -/
theorem song_repeat_validated_startSong_not
    : (∀ rc : ℚ, rc ≤ 0 →
        Song.make "song-1" "Test Song" 120 rc [] =
          .error "Repeat count must be positive and finite") ∧
      (∀ (e : PlaybackEngine) (song : Song) (patterns : List Pattern)
          (now : ℚ) (fuel : ℕ),
        e.state ≠ .playing → e.currentPattern = none →
        song.patternSequence = [] →
        (e.startSong song patterns now fuel).engine.state = .playing ∧
        (e.startSong song patterns now fuel).outcome = .completed ∧
        (e.startSong song patterns now fuel).events = []) ∧
      (∀ song : Song, song.patternSequence = [] →
        SongComposer.validateFiniteLoop song = false) := by
  refine ⟨?_, ?_, ?_⟩
  · intro rc hrc
    unfold Song.make
    rw [if_neg (by decide), if_neg (by decide), if_neg (by norm_num),
      if_pos hrc]
  · intro e song patterns now fuel hstate hpat hseq
    unfold PlaybackEngine.startSong
    rw [if_neg hstate, hseq]
    dsimp only
    unfold PlaybackEngine.schedulePlayback
    split
    · exact ⟨rfl, rfl, rfl⟩
    · unfold PlaybackEngine.scheduleNotes
      dsimp only
      rw [hpat]
      exact ⟨rfl, rfl, rfl⟩
  · intro song hseq
    unfold SongComposer.validateFiniteLoop
    rw [hseq]
    simp

/-- C3 witness: the theorem applied at repeat count `0` and at the concrete
empty song on a fresh engine. -/
theorem song_repeat_validated_startSong_not_witness :
    Song.make "song-1" "Test Song" 120 0 [] =
      .error "Repeat count must be positive and finite" ∧
    (PlaybackEngine.new.startSong ⟨"song-1", "Test Song", 120, 1, []⟩
        [] 0 5).engine.state = .playing :=
  ⟨song_repeat_validated_startSong_not.1 0 (by norm_num),
    (song_repeat_validated_startSong_not.2.1 PlaybackEngine.new
      ⟨"song-1", "Test Song", 120, 1, []⟩ [] 0 5 (by decide) rfl rfl).1⟩

/-! ## Scheduling-loop preservation lemmas -/

/-- When the while-loop condition is already false, the loop completes
immediately, whatever the fuel. -/
theorem scheduleNotesGo_of_not_lt (u : ℚ) (fuel : ℕ) (e : PlaybackEngine)
    (evs : List ScheduledNote) (fired : Bool) (h : ¬ e.getNextNoteTime < u) :
    scheduleNotesGo u fuel e evs fired = ⟨e, evs, .completed, fired⟩ := by
  cases fuel <;> (unfold scheduleNotesGo; rw [if_neg h])

/-- `handleSongAdvance` never touches `startTime`, `bpm`, `totalLoops` or
`pauseTime` (also not through `stop`). -/
theorem handleSongAdvance_fst (e : PlaybackEngine) :
    e.handleSongAdvance.1.startTime = e.startTime ∧
    e.handleSongAdvance.1.bpm = e.bpm ∧
    e.handleSongAdvance.1.totalLoops = e.totalLoops ∧
    e.handleSongAdvance.1.pauseTime = e.pauseTime := by
  unfold PlaybackEngine.handleSongAdvance
  split
  · exact ⟨rfl, rfl, rfl, rfl⟩
  · dsimp only
    split
    · exact ⟨rfl, rfl, rfl, rfl⟩
    · exact ⟨rfl, rfl, rfl, rfl⟩

/-- The scheduling loop never modifies `startTime`, `bpm`, `totalLoops` or
`pauseTime` — in particular the virtual clock base is *not* advanced on a
pattern wrap. -/
theorem scheduleNotesGo_preserves (u : ℚ) :
    ∀ (fuel : ℕ) (e : PlaybackEngine) (evs : List ScheduledNote) (fired : Bool),
      (scheduleNotesGo u fuel e evs fired).engine.startTime = e.startTime ∧
      (scheduleNotesGo u fuel e evs fired).engine.bpm = e.bpm ∧
      (scheduleNotesGo u fuel e evs fired).engine.totalLoops = e.totalLoops ∧
      (scheduleNotesGo u fuel e evs fired).engine.pauseTime = e.pauseTime := by
  intro fuel
  induction fuel with
  | zero =>
    intro e evs fired
    unfold scheduleNotesGo
    split <;> exact ⟨rfl, rfl, rfl, rfl⟩
  | succ n ih =>
    intro e evs fired
    unfold scheduleNotesGo
    split
    · split
      · exact ⟨rfl, rfl, rfl, rfl⟩
      · split
        · exact ⟨rfl, rfl, rfl, rfl⟩
        · exact ⟨rfl, rfl, rfl, rfl⟩
        · dsimp only
          split
          · split
            · exact ⟨(ih _ _ _).1.trans (handleSongAdvance_fst _).1,
                (ih _ _ _).2.1.trans (handleSongAdvance_fst _).2.1,
                (ih _ _ _).2.2.1.trans (handleSongAdvance_fst _).2.2.1,
                (ih _ _ _).2.2.2.trans (handleSongAdvance_fst _).2.2.2⟩
            · exact ⟨(ih _ _ _).1, (ih _ _ _).2.1, (ih _ _ _).2.2.1,
                (ih _ _ _).2.2.2⟩
          · exact ⟨(ih _ _ _).1, (ih _ _ _).2.1, (ih _ _ _).2.2.1,
              (ih _ _ _).2.2.2⟩
    · exact ⟨rfl, rfl, rfl, rfl⟩

/-- During standalone pattern playback (no current song) the scheduling loop
never changes the state, the song slot or the pattern slot. -/
theorem scheduleNotesGo_song_none (u : ℚ) :
    ∀ (fuel : ℕ) (e : PlaybackEngine) (evs : List ScheduledNote) (fired : Bool),
      e.currentSong = none →
      (scheduleNotesGo u fuel e evs fired).engine.state = e.state ∧
      (scheduleNotesGo u fuel e evs fired).engine.currentSong = none ∧
      (scheduleNotesGo u fuel e evs fired).engine.currentPattern =
        e.currentPattern := by
  intro fuel
  induction fuel with
  | zero =>
    intro e evs fired hsong
    unfold scheduleNotesGo
    split <;> exact ⟨rfl, hsong, rfl⟩
  | succ n ih =>
    intro e evs fired hsong
    unfold scheduleNotesGo
    split
    · split
      · exact ⟨rfl, hsong, rfl⟩
      · split
        · exact ⟨rfl, hsong, rfl⟩
        · exact ⟨rfl, hsong, rfl⟩
        · dsimp only
          split
          · split
            · rename_i s heq
              have hcontra : e.currentSong = some s := heq
              rw [hsong] at hcontra
              exact Option.noConfusion hcontra
            · exact ih _ _ _ (show e.currentSong = none from hsong)
          · exact ih _ _ _ (show e.currentSong = none from hsong)
    · exact ⟨rfl, hsong, rfl⟩

/-- `schedulePlayback` with no interval registered: registers it and performs
the initial synchronous `scheduleNotes` call. -/
theorem schedulePlayback_not_set (e : PlaybackEngine) (now : ℚ) (fuel : ℕ)
    (h : e.scheduleIntervalSet = false) :
    e.schedulePlayback now fuel =
      PlaybackEngine.scheduleNotes { e with scheduleIntervalSet := true }
        now fuel := by
  unfold PlaybackEngine.schedulePlayback
  rw [if_neg (by rw [h]; simp)]

/-- `scheduleNotes` with no current pattern is the early return. -/
theorem scheduleNotes_none (e : PlaybackEngine) (now : ℚ) (fuel : ℕ)
    (h : e.currentPattern = none) :
    e.scheduleNotes now fuel = ⟨e, [], .completed, false⟩ := by
  unfold PlaybackEngine.scheduleNotes
  split
  · rfl
  · rename_i p hp
    rw [h] at hp
    exact Option.noConfusion hp

/-- `scheduleNotes` with a current pattern enters the look-ahead loop. -/
theorem scheduleNotes_some (e : PlaybackEngine) (now : ℚ) (fuel : ℕ)
    (p : Pattern) (h : e.currentPattern = some p) :
    e.scheduleNotes now fuel = scheduleNotesGo (now + 1 / 10) fuel e [] false := by
  unfold PlaybackEngine.scheduleNotes
  split
  · rename_i hp
    rw [h] at hp
    exact Option.noConfusion hp
  · rfl

/-- One `scheduleNotes` invocation never modifies `startTime`, `bpm` or
`totalLoops`. -/
theorem scheduleNotes_preserves (e : PlaybackEngine) (now : ℚ) (fuel : ℕ) :
    (e.scheduleNotes now fuel).engine.startTime = e.startTime ∧
    (e.scheduleNotes now fuel).engine.bpm = e.bpm ∧
    (e.scheduleNotes now fuel).engine.totalLoops = e.totalLoops := by
  unfold PlaybackEngine.scheduleNotes
  split
  · exact ⟨rfl, rfl, rfl⟩
  · exact ⟨(scheduleNotesGo_preserves _ _ _ _ _).1,
      (scheduleNotesGo_preserves _ _ _ _ _).2.1,
      (scheduleNotesGo_preserves _ _ _ _ _).2.2.1⟩

/-- During standalone playback a `scheduleNotes` invocation never changes
the playback state. -/
theorem scheduleNotes_state_song_none (e : PlaybackEngine) (now : ℚ)
    (fuel : ℕ) (h : e.currentSong = none) :
    (e.scheduleNotes now fuel).engine.state = e.state := by
  unfold PlaybackEngine.scheduleNotes
  split
  · rfl
  · exact (scheduleNotesGo_song_none _ _ _ _ _ h).1

/-- A `scheduleNotes` invocation whose look-ahead window holds no due note
schedules nothing and changes nothing. -/
theorem scheduleNotes_of_not_lt (e : PlaybackEngine) (now : ℚ) (fuel : ℕ)
    (h : ¬ e.getNextNoteTime < now + 1 / 10) :
    e.scheduleNotes now fuel = ⟨e, [], .completed, false⟩ := by
  unfold PlaybackEngine.scheduleNotes
  split
  · rfl
  · exact scheduleNotesGo_of_not_lt _ _ _ _ _ h

/-! ## C6 -/

/-- C6: `pause` from any state other than `Playing` and `resume` from any
state other than `Paused` are exact no-ops; from `Playing`, `pause(t1)` then
`resume(t2)` preserves the current step index, shifts `startTime` forward by
precisely `t2 - t1` (the pause duration measured from the recorded
`pauseTime` mark), and therefore — whenever the look-ahead window at resume
time holds no due note — the whole operation is exactly the state update that
translates the virtual playhead by the pause duration, scheduling nothing. -/
theorem pause_resume_preserves_playhead :
    (∀ (e : PlaybackEngine) (t : ℚ), e.state ≠ .playing → e.pause t = e) ∧
    (∀ (e : PlaybackEngine) (t : ℚ) (fuel : ℕ), e.state ≠ .paused →
      e.resume t fuel = ⟨e, [], .completed, false⟩) ∧
    (∀ (e : PlaybackEngine) (t1 t2 : ℚ) (fuel : ℕ), e.state = .playing →
      (e.pause t1).state = .paused ∧
      (e.pause t1).currentStep = e.currentStep ∧
      ((e.pause t1).resume t2 fuel).engine.startTime =
        e.startTime + (t2 - t1) ∧
      (t2 + 1 / 10 ≤ e.getNextNoteTime + (t2 - t1) →
        (e.pause t1).resume t2 fuel =
          ⟨{ e with
              pauseTime := t1
              startTime := e.startTime + (t2 - t1)
              state := .playing
              scheduleIntervalSet := true },
            [], .completed, false⟩)) := by
  refine ⟨?_, ?_, ?_⟩
  · intro e t h
    unfold PlaybackEngine.pause
    rw [if_pos h]
  · intro e t fuel h
    unfold PlaybackEngine.resume
    rw [if_pos h]
  · intro e t1 t2 fuel h
    have hpause : e.pause t1 =
        { e with
          scheduleIntervalSet := false
          pauseTime := t1
          state := .paused } := by
      unfold PlaybackEngine.pause
      rw [if_neg (by simp [h])]
    have hresume : (e.pause t1).resume t2 fuel =
        PlaybackEngine.scheduleNotes
          { e with
            pauseTime := t1
            startTime := e.startTime + (t2 - t1)
            state := .playing
            scheduleIntervalSet := true } t2 fuel := by
      rw [hpause]
      unfold PlaybackEngine.resume
      rw [if_neg (by simp)]
      dsimp only
      exact schedulePlayback_not_set _ _ _ rfl
    refine ⟨by rw [hpause], by rw [hpause], ?_, ?_⟩
    · rw [hresume]
      exact (scheduleNotes_preserves _ _ _).1
    · intro hfar
      rw [hresume]
      have hnn : ¬ ({ e with
          pauseTime := t1
          startTime := e.startTime + (t2 - t1)
          state := PlaybackState.playing
          scheduleIntervalSet := true } : PlaybackEngine).getNextNoteTime <
          t2 + 1 / 10 := by
        unfold PlaybackEngine.getNextNoteTime PlaybackEngine.getStepDuration
        dsimp only
        unfold PlaybackEngine.getNextNoteTime PlaybackEngine.getStepDuration
          at hfar
        push_neg
        linarith
      rw [scheduleNotes_of_not_lt _ _ _ hnn]

/-- C6 witness: a playing engine paused at `t = 10` and resumed at `t = 16`
continues with the virtual clock shifted by exactly the 6-second pause. -/
theorem pause_resume_preserves_playhead_witness :
    (((⟨.playing, none, none, [], 120, 3, 10, 0, true, 1, 0, false⟩ :
        PlaybackEngine).pause 10).resume 16 5) =
      ⟨⟨.playing, none, none, [], 120, 3, 16, 10, true, 1, 0, false⟩,
        [], .completed, false⟩ := by
  have h := (pause_resume_preserves_playhead.2.2
    (⟨.playing, none, none, [], 120, 3, 10, 0, true, 1, 0, false⟩ :
      PlaybackEngine) 10 16 5 rfl).2.2.2
  have hfar : (16 : ℚ) + 1 / 10 ≤
      (⟨.playing, none, none, [], 120, 3, 10, 0, true, 1, 0, false⟩ :
        PlaybackEngine).getNextNoteTime + (16 - 10) := by
    unfold PlaybackEngine.getNextNoteTime PlaybackEngine.getStepDuration
    norm_num
  exact (h hfar).trans (by with_unfolding_all decide)

/-! ## C10 -/

/-- C10: `start` is a no-op exactly in the `Playing` state; from `Paused`
(interval cleared by `pause`, standalone playback) it is *not* a no-op: it
discards the paused position — proceeding exactly as a fresh scheduling run
with playhead 0, loop counter 0, `totalLoops = 1`, `startTime = now` and
state `Playing` — and the resulting engine differs from the paused one. -/
theorem start_from_paused_restarts :
    (∀ (e : PlaybackEngine) (p : Pattern) (b now : ℚ) (fuel : ℕ),
      e.state = .playing → e.start p b now fuel = ⟨e, [], .completed, false⟩) ∧
    (∀ (e : PlaybackEngine) (p : Pattern) (b now : ℚ) (fuel : ℕ),
      e.state = .paused → e.scheduleIntervalSet = false → e.currentSong = none →
      e.start p b now fuel =
        PlaybackEngine.scheduleNotes
          { e with
            currentPattern := some p
            bpm := b
            currentStep := 0
            currentLoop := 0
            totalLoops := 1
            startTime := now
            state := .playing
            scheduleIntervalSet := true } now fuel ∧
      (e.start p b now fuel).engine.state = .playing ∧
      (e.start p b now fuel).engine.startTime = now ∧
      (e.start p b now fuel).engine.totalLoops = 1 ∧
      (e.start p b now fuel).engine ≠ e) := by
  refine ⟨?_, ?_⟩
  · intro e p b now fuel h
    unfold PlaybackEngine.start
    rw [if_pos h]
  · intro e p b now fuel hst hint hsong
    have hstart : e.start p b now fuel =
        PlaybackEngine.scheduleNotes
          { e with
            currentPattern := some p
            bpm := b
            currentStep := 0
            currentLoop := 0
            totalLoops := 1
            startTime := now
            state := .playing
            scheduleIntervalSet := true } now fuel := by
      unfold PlaybackEngine.start
      rw [if_neg (by simp [hst])]
      dsimp only
      exact schedulePlayback_not_set _ _ _ (show _ = false from hint)
    have hstate : (e.start p b now fuel).engine.state = .playing := by
      rw [hstart]
      exact scheduleNotes_state_song_none _ _ _ hsong
    have hstart2 : (e.start p b now fuel).engine.startTime = now := by
      rw [hstart]
      exact (scheduleNotes_preserves _ _ _).1
    have htl : (e.start p b now fuel).engine.totalLoops = 1 := by
      rw [hstart]
      exact (scheduleNotes_preserves _ _ _).2.2
    refine ⟨hstart, hstate, hstart2, htl, ?_⟩
    intro heq
    rw [heq, hst] at hstate
    exact PlaybackState.noConfusion hstate

/-- C10 witness: the theorem applied to a concrete engine paused mid-pattern;
`start` discards the paused position and restarts playing at `t = 9`. -/
theorem start_from_paused_restarts_witness :
    ((⟨.paused, none, none, [], 120, 7, 2, 1, false, 1, 0, false⟩ :
        PlaybackEngine).start p16 90 9 3).engine.state = .playing ∧
    ((⟨.paused, none, none, [], 120, 7, 2, 1, false, 1, 0, false⟩ :
        PlaybackEngine).start p16 90 9 3).engine.startTime = 9 ∧
    ((⟨.paused, none, none, [], 120, 7, 2, 1, false, 1, 0, false⟩ :
        PlaybackEngine).start p16 90 9 3).engine.totalLoops = 1 := by
  have h := start_from_paused_restarts.2
    (⟨.paused, none, none, [], 120, 7, 2, 1, false, 1, 0, false⟩ :
      PlaybackEngine) p16 90 9 3 rfl rfl rfl
  exact ⟨h.2.1, h.2.2.1, h.2.2.2.1⟩

/-! ## C1 -/

/-- At 120 BPM with `startTime = 0`, every playhead position of the 16-step
pattern has its virtual note time inside the look-ahead window that ends at
`1.9 s`. -/
theorem c1_cond (c : ℕ) (loop : ℚ) (hc : c < 16) :
    (c1State c loop).getNextNoteTime < 19 / 10 := by
  unfold PlaybackEngine.getNextNoteTime PlaybackEngine.getStepDuration
  dsimp only
  have hcle : (c : ℚ) ≤ 15 := by exact_mod_cast Nat.lt_succ_iff.mp hc
  norm_num
  linarith

/-- Indexing the default 16-step pattern inside the loop. -/
theorem c1_getStep (c : ℕ) (hc : c < 16) :
    p16.getStep (c : ℤ) = .ok (some ⟨(c : ℤ), []⟩) := by
  unfold Pattern.getStep p16
  dsimp only
  rw [if_neg (by omega), Int.toNat_natCast, defaultSteps_get 16 c hc]

/-- From any wrap-cycle state, the look-ahead loop of `scheduleNotes` never
terminates: the loop condition stays true after every iteration, because the
wrap resets the playhead to step 0 without advancing `startTime`, so the
next-note-time comparison is made against a stale clock base.  Whatever fuel
is provided, it is exhausted with the condition still true. -/
theorem c1_go_exhausts :
    ∀ (fuel : ℕ) (c : ℕ) (loop : ℚ) (evs : List ScheduledNote) (fired : Bool),
      c < 16 →
      (scheduleNotesGo (19 / 10) fuel (c1State c loop) evs fired).outcome =
        .fuelExhausted := by
  intro fuel
  induction fuel with
  | zero =>
    intro c loop evs fired hc
    unfold scheduleNotesGo
    rw [if_pos (c1_cond c loop hc)]
  | succ n ih =>
    intro c loop evs fired hc
    unfold scheduleNotesGo
    rw [if_pos (c1_cond c loop hc)]
    try dsimp only
    rw [c1_getStep c hc]
    try dsimp only
    simp only [List.map_nil, List.append_nil]
    by_cases hc15 : c = 15
    · subst hc15
      rw [if_pos (show p16.stepCount ≤ 15 + 1 from by show 16 ≤ 15 + 1; omega)]
      try dsimp only
      exact ih 0 (loop + 1) _ _ (by norm_num)
    · rw [if_neg (show ¬ p16.stepCount ≤ c + 1 from by
        show ¬ 16 ≤ c + 1; omega)]
      try dsimp only
      exact ih (c + 1) loop _ _ (by omega)

set_option maxRecDepth 20000 in
/-- C1: the look-ahead while-loop of `scheduleNotes` has no iteration
ceiling.  In the concrete session — `start(p16, 120)` at time 0, interval
ticks every 25 ms — the engine reaches playhead step 15 with
`startTime` still 0, and the tick at `t = 1.8 s` (the one during which the
playhead wraps past the final step of the standalone pattern) exhausts
*every* fuel bound with the loop condition still true: the loop iterates
beyond any fixed horizon bound (in particular beyond 100 iterations), i.e.
it never terminates. -/
theorem scheduleNotes_wrap_tick_unbounded :
    c1Before = c1State 15 0 ∧
    ∀ fuel : ℕ,
      (c1Before.scheduleNotes (9 / 5) fuel).outcome = .fuelExhausted := by
  have hB : c1Before = c1State 15 0 := by with_unfolding_all decide
  refine ⟨hB, ?_⟩
  intro fuel
  rw [hB, scheduleNotes_some _ _ _ p16 rfl,
    show (9 / 5 : ℚ) + 1 / 10 = 19 / 10 from by norm_num]
  exact c1_go_exhausts fuel 15 0 [] false (by norm_num)

/-! ## C2 -/

set_option maxRecDepth 20000 in
/-- C2: for the two-entry song `songAB` (sequence `[pA × 1, pB × 1]`, repeat
count 1), the engine does not advance through the full pattern sequence:
after the first pattern's 2 steps wrap (during the tick at `t = 0.05 s`),
`handleSongAdvance` increments the song-level loop counter immediately,
reaches `totalLoops`, stops the engine and fires the completion callback —
without ever scheduling the second pattern (no `B4` event is ever emitted) —
and the same tick then crashes on the cleared pattern reference. -/
theorem startSong_two_pattern_sequence_stops_after_first :
    songAB.patternSequence.length = 2 ∧
    songAB.repeatCount = 1 ∧
    c2r0.events = [⟨noteA, 0⟩] ∧ c2r0.outcome = .completed ∧
    c2r1.events = [] ∧ c2r1.outcome = .completed ∧
    c2r2.events = [] ∧ c2r2.completeFired = true ∧
    c2r2.engine.state = .stopped ∧ c2r2.outcome = .crashed ∧
    ((c2r0.events ++ c2r1.events ++ c2r2.events).all
      (fun ev => ev.note.pitch != "B4")) = true := by
  with_unfolding_all decide

/-! ## C8 helper lemmas -/

namespace AudioExporter

/-- Reading a freshly written byte. -/
theorem setByte_read_eq (v : DataView) (off b : ℕ) :
    (v.setByte off b) off = b % 256 := by
  unfold DataView.setByte
  rw [if_pos rfl]

/-- Reading any other offset. -/
theorem setByte_read_ne (v : DataView) (off b i : ℕ) (h : i ≠ off) :
    (v.setByte off b) i = v i := by
  unfold DataView.setByte
  rw [if_neg h]

/-- A reduced `Int.emod 256` residue is already a byte. -/
theorem emod256_toNat_mod (x : ℤ) :
    (x.emod 256).toNat % 256 = (x.emod 256).toNat := by
  have h0 : 0 ≤ x.emod 256 := Int.emod_nonneg _ (by norm_num)
  have h1 : x.emod 256 < 256 := Int.emod_lt_of_pos _ (by norm_num)
  omega

/-- Reducing twice modulo 256 is reducing once. -/
theorem emod_emod (x : ℤ) : (x.emod 256).emod 256 = x.emod 256 := by
  show (x % 256) % 256 = x % 256
  omega

/-- Casting a natural through `Int.emod` and back. -/
theorem natCast_emod_toNat (n m : ℕ) :
    ((n : ℤ).emod (m : ℤ)).toNat = n % m := by
  have h : (n : ℤ).emod (m : ℤ) = ((n % m : ℕ) : ℤ) := by
    show (n : ℤ) % (m : ℤ) = _
    push_cast
    rfl
  rw [h, Int.toNat_natCast]

/-- The character loop never writes below its offset. -/
theorem writeChars_read_lt :
    ∀ (l : List Char) (v : DataView) (off i : ℕ), i < off →
      writeChars v off l i = v i := by
  intro l
  induction l with
  | nil =>
      intro v off i h
      rfl
  | cons c rest ih =>
      intro v off i h
      show writeChars (v.setByte off c.toNat) (off + 1) rest i = v i
      rw [ih _ _ _ (by omega), setByte_read_ne _ _ _ _ (by omega)]

/-- One sample write never writes below its offset. -/
theorem writeSampleAt_read_lt (v : DataView) (off bd : ℕ) (s : ℚ) (i : ℕ)
    (h : i < off) : writeSampleAt v off bd s i = v i := by
  unfold writeSampleAt DataView.setUint8 DataView.setInt16 DataView.setUint16
    DataView.setInt32 DataView.setUint32
  dsimp only
  split
  · exact setByte_read_ne _ _ _ _ (by omega)
  · rw [setByte_read_ne _ _ _ _ (by omega), setByte_read_ne _ _ _ _ (by omega)]
  · rw [setByte_read_ne _ _ _ _ (by omega), setByte_read_ne _ _ _ _ (by omega),
      setByte_read_ne _ _ _ _ (by omega)]
  · rw [setByte_read_ne _ _ _ _ (by omega), setByte_read_ne _ _ _ _ (by omega),
      setByte_read_ne _ _ _ _ (by omega), setByte_read_ne _ _ _ _ (by omega)]
  · rfl

/-- The sample loop never writes below its starting offset. -/
theorem writeSamples_read_lt :
    ∀ (l : List ℚ) (v : DataView) (off bd bps i : ℕ), i < off →
      writeSamples v off bd bps l i = v i := by
  intro l
  induction l with
  | nil =>
      intro v off bd bps i h
      rfl
  | cons a rest ih =>
      intro v off bd bps i h
      show writeSamples (writeSampleAt v off bd a) (off + bps) bd bps rest i = v i
      rw [ih _ _ _ _ _ (by omega), writeSampleAt_read_lt _ _ _ _ _ h]

/-- Reading the first byte of a two-byte write chain. -/
theorem chain2_r0 (v : DataView) (off b0 b1 : ℕ) :
    ((v.setByte off b0).setByte (off + 1) b1) off = b0 % 256 := by
  rw [setByte_read_ne _ _ _ _ (by omega), setByte_read_eq]

/-- Reading the second byte of a two-byte write chain. -/
theorem chain2_r1 (v : DataView) (off b0 b1 : ℕ) :
    ((v.setByte off b0).setByte (off + 1) b1) (off + 1) = b1 % 256 := by
  rw [setByte_read_eq]

/-- Reading the first byte of a three-byte write chain. -/
theorem chain3_r0 (v : DataView) (off b0 b1 b2 : ℕ) :
    (((v.setByte off b0).setByte (off + 1) b1).setByte (off + 2) b2) off =
      b0 % 256 := by
  rw [setByte_read_ne _ _ _ _ (by omega), setByte_read_ne _ _ _ _ (by omega),
    setByte_read_eq]

/-- Reading the second byte of a three-byte write chain. -/
theorem chain3_r1 (v : DataView) (off b0 b1 b2 : ℕ) :
    (((v.setByte off b0).setByte (off + 1) b1).setByte (off + 2) b2) (off + 1) =
      b1 % 256 := by
  rw [setByte_read_ne _ _ _ _ (by omega), setByte_read_eq]

/-- Reading the third byte of a three-byte write chain. -/
theorem chain3_r2 (v : DataView) (off b0 b1 b2 : ℕ) :
    (((v.setByte off b0).setByte (off + 1) b1).setByte (off + 2) b2) (off + 2) =
      b2 % 256 := by
  rw [setByte_read_eq]

/-- Reading the first byte of a four-byte write chain. -/
theorem chain4_r0 (v : DataView) (off b0 b1 b2 b3 : ℕ) :
    ((((v.setByte off b0).setByte (off + 1) b1).setByte (off + 2) b2).setByte
        (off + 3) b3) off = b0 % 256 := by
  rw [setByte_read_ne _ _ _ _ (by omega), setByte_read_ne _ _ _ _ (by omega),
    setByte_read_ne _ _ _ _ (by omega), setByte_read_eq]

/-- Reading the second byte of a four-byte write chain. -/
theorem chain4_r1 (v : DataView) (off b0 b1 b2 b3 : ℕ) :
    ((((v.setByte off b0).setByte (off + 1) b1).setByte (off + 2) b2).setByte
        (off + 3) b3) (off + 1) = b1 % 256 := by
  rw [setByte_read_ne _ _ _ _ (by omega), setByte_read_ne _ _ _ _ (by omega),
    setByte_read_eq]

/-- Reading the third byte of a four-byte write chain. -/
theorem chain4_r2 (v : DataView) (off b0 b1 b2 b3 : ℕ) :
    ((((v.setByte off b0).setByte (off + 1) b1).setByte (off + 2) b2).setByte
        (off + 3) b3) (off + 2) = b2 % 256 := by
  rw [setByte_read_ne _ _ _ _ (by omega), setByte_read_eq]

/-- Reading the fourth byte of a four-byte write chain. -/
theorem chain4_r3 (v : DataView) (off b0 b1 b2 b3 : ℕ) :
    ((((v.setByte off b0).setByte (off + 1) b1).setByte (off + 2) b2).setByte
        (off + 3) b3) (off + 3) = b3 % 256 := by
  rw [setByte_read_eq]

/-- Byte image of one 8-bit sample write. -/
theorem writeSampleAt_bytes_8 (v : DataView) (off : ℕ) (s : ℚ) :
    readBytes (writeSampleAt v off 8 s) off 1 = sampleBytesSpec 8 s := by
  show [writeSampleAt v off 8 s (off + 0)] = _
  unfold writeSampleAt DataView.setUint8 sampleBytesSpec
  dsimp only
  simp only [Nat.add_zero]
  rw [setByte_read_eq, emod256_toNat_mod]

/-- Byte image of one 16-bit sample write. -/
theorem writeSampleAt_bytes_16 (v : DataView) (off : ℕ) (s : ℚ) :
    readBytes (writeSampleAt v off 16 s) off 2 = sampleBytesSpec 16 s := by
  show [writeSampleAt v off 16 s (off + 0), writeSampleAt v off 16 s (off + 1)] = _
  unfold writeSampleAt DataView.setInt16 DataView.setUint16 sampleBytesSpec
  dsimp only
  simp only [Nat.add_zero]
  rw [chain2_r0, chain2_r1]
  simp only [List.cons.injEq, and_true]
  constructor <;> omega

/-- Byte image of one 24-bit sample write. -/
theorem writeSampleAt_bytes_24 (v : DataView) (off : ℕ) (s : ℚ) :
    readBytes (writeSampleAt v off 24 s) off 3 = sampleBytesSpec 24 s := by
  show [writeSampleAt v off 24 s (off + 0), writeSampleAt v off 24 s (off + 1),
    writeSampleAt v off 24 s (off + 2)] = _
  unfold writeSampleAt DataView.setUint8 sampleBytesSpec
  dsimp only
  simp only [Nat.add_zero]
  rw [chain3_r0, chain3_r1, chain3_r2]
  simp only [List.cons.injEq, and_true, emod_emod]
  refine ⟨emod256_toNat_mod _, emod256_toNat_mod _, emod256_toNat_mod _⟩

/-- Byte image of one 32-bit sample write. -/
theorem writeSampleAt_bytes_32 (v : DataView) (off : ℕ) (s : ℚ) :
    readBytes (writeSampleAt v off 32 s) off 4 = sampleBytesSpec 32 s := by
  show [writeSampleAt v off 32 s (off + 0), writeSampleAt v off 32 s (off + 1),
    writeSampleAt v off 32 s (off + 2), writeSampleAt v off 32 s (off + 3)] = _
  unfold writeSampleAt DataView.setInt32 DataView.setUint32 sampleBytesSpec
  dsimp only
  simp only [Nat.add_zero]
  rw [chain4_r0, chain4_r1, chain4_r2, chain4_r3]
  simp only [List.cons.injEq, and_true]
  refine ⟨by omega, by omega, by omega, by omega⟩

/-- Byte image of the `i`-th sample in the written data section. -/
theorem writeSamples_read_at :
    ∀ (l : List ℚ) (v : DataView) (off i : ℕ) (s : ℚ) (bd bps : ℕ),
      l.get? i = some s →
      (bd = 8 ∧ bps = 1) ∨ (bd = 16 ∧ bps = 2) ∨ (bd = 24 ∧ bps = 3) ∨
        (bd = 32 ∧ bps = 4) →
      readBytes (writeSamples v off bd bps l) (off + i * bps) bps =
        sampleBytesSpec bd s := by
  intro l
  induction l with
  | nil =>
      intro v off i s bd bps hget hbd
      simp at hget
  | cons a rest ih =>
      intro v off i s bd bps hget hbd
      cases i with
      | zero =>
          have ha : a = s := by simpa using hget
          subst ha
          show readBytes
            (writeSamples (writeSampleAt v off bd a) (off + bps) bd bps rest)
            (off + 0 * bps) bps = _
          rw [show off + 0 * bps = off from by ring]
          have hcongr : readBytes
              (writeSamples (writeSampleAt v off bd a) (off + bps) bd bps rest)
              off bps = readBytes (writeSampleAt v off bd a) off bps := by
            unfold readBytes
            refine List.map_congr_left ?_
            intro j hj
            have hjlt : j < bps := List.mem_range.mp hj
            exact writeSamples_read_lt _ _ _ _ _ _ (by omega)
          rw [hcongr]
          rcases hbd with ⟨rfl, rfl⟩ | ⟨rfl, rfl⟩ | ⟨rfl, rfl⟩ | ⟨rfl, rfl⟩
          · exact writeSampleAt_bytes_8 v off a
          · exact writeSampleAt_bytes_16 v off a
          · exact writeSampleAt_bytes_24 v off a
          · exact writeSampleAt_bytes_32 v off a
      | succ j =>
          have hget' : rest.get? j = some s := by simpa using hget
          show readBytes
            (writeSamples (writeSampleAt v off bd a) (off + bps) bd bps rest)
            (off + (j + 1) * bps) bps = _
          rw [show off + (j + 1) * bps = (off + bps) + j * bps from by ring]
          exact ih _ _ _ _ _ _ hget' hbd

/-- Clamping is idempotent. -/
theorem clamp_idem (s : ℚ) :
    max (-1) (min 1 (max (-1) (min 1 s))) = max (-1) (min 1 s) := by
  have h1 : max (-1 : ℚ) (min 1 s) ≤ 1 := max_le (by norm_num) (min_le_left _ _)
  rw [min_eq_right h1, ← max_assoc, max_self]

/-- The quantised bytes depend only on the clamped sample: quantisation
happens after the clamp to `[-1, 1]`. -/
theorem sampleBytesSpec_clamp (bd : ℕ) (s : ℚ) :
    sampleBytesSpec bd (max (-1) (min 1 s)) = sampleBytesSpec bd s := by
  unfold sampleBytesSpec
  dsimp only
  rw [clamp_idem]

/-- Reading a byte residue back through `Int.emod 256`. -/
theorem cast_emod_toNat_256 (n : ℕ) : ((n : ℤ).emod 256).toNat = n % 256 := by
  show ((n : ℤ) % 256).toNat = n % 256
  omega

/-- Reading a 16-bit residue back. -/
theorem cast_emod_toNat_65536 (n : ℕ) :
    ((n : ℤ).emod 65536).toNat = n % 65536 := by
  show ((n : ℤ) % 65536).toNat = n % 65536
  omega

/-- Reading a 32-bit residue back. -/
theorem cast_emod_toNat_4294967296 (n : ℕ) :
    ((n : ℤ).emod 4294967296).toNat = n % 4294967296 := by
  show ((n : ℤ) % 4294967296).toNat = n % 4294967296
  omega

/-- Expanding a four-byte read. -/
theorem readBytes_four (v : DataView) (off : ℕ) :
    readBytes v off 4 = [v off, v (off + 1), v (off + 2), v (off + 3)] := rfl

/-- C8: every exported WAV buffer starts with the canonical 44-byte PCM
header — `"RIFF"`, little-endian `fileSize - 8`, `"WAVE"`, `"fmt "`,
subchunk size 16, PCM tag 1, channel count, sample rate, byte rate
`sampleRate × channels × bytesPerSample`, block align
`channels × bytesPerSample`, bit depth, `"data"`, data byte count — and
every sample is clamped to `[-1, 1]` before quantisation (the stored bytes
of sample `i` are the quantisation of the clamped sample, and quantisation
is invariant under pre-clamping).  The numeric hypotheses say the header
fields fit their 16- and 32-bit little-endian slots. -/
theorem createWavFile_header_layout
    (samples : List ℚ) (opts : AudioExportOptions)
    (hbd : opts.bitDepth = 8 ∨ opts.bitDepth = 16 ∨ opts.bitDepth = 24 ∨
      opts.bitDepth = 32)
    (hch : opts.audioChannels * (opts.bitDepth / 8) < 65536)
    (hsr : opts.sampleRate < 4294967296)
    (hbr : opts.sampleRate * opts.audioChannels * (opts.bitDepth / 8) <
      4294967296)
    (hds : samples.length * (opts.bitDepth / 8) + 36 < 4294967296) :
    readBytes (createWavFile samples opts) 0 4 = [82, 73, 70, 70] ∧
    readU32 (createWavFile samples opts) 4 =
      (44 + samples.length * (opts.bitDepth / 8)) - 8 ∧
    readBytes (createWavFile samples opts) 8 4 = [87, 65, 86, 69] ∧
    readBytes (createWavFile samples opts) 12 4 = [102, 109, 116, 32] ∧
    readU32 (createWavFile samples opts) 16 = 16 ∧
    readU16 (createWavFile samples opts) 20 = 1 ∧
    readU16 (createWavFile samples opts) 22 = opts.audioChannels ∧
    readU32 (createWavFile samples opts) 24 = opts.sampleRate ∧
    readU32 (createWavFile samples opts) 28 =
      opts.sampleRate * opts.audioChannels * (opts.bitDepth / 8) ∧
    readU16 (createWavFile samples opts) 32 =
      opts.audioChannels * (opts.bitDepth / 8) ∧
    readU16 (createWavFile samples opts) 34 = opts.bitDepth ∧
    readBytes (createWavFile samples opts) 36 4 = [100, 97, 116, 97] ∧
    readU32 (createWavFile samples opts) 40 =
      samples.length * (opts.bitDepth / 8) ∧
    (∀ (i : ℕ) (s : ℚ), samples.get? i = some s →
      readBytes (createWavFile samples opts) (44 + i * (opts.bitDepth / 8))
          (opts.bitDepth / 8) = sampleBytesSpec opts.bitDepth s ∧
      sampleBytesSpec opts.bitDepth s =
        sampleBytesSpec opts.bitDepth (max (-1) (min 1 s))) := by
  obtain ⟨sr, bd, ch⟩ := opts
  dsimp only at *
  have hbps1 : 1 ≤ bd / 8 := by
    rcases hbd with rfl | rfl | rfl | rfl <;> norm_num
  have hch2 : ch < 65536 := by
    have hle : ch ≤ ch * (bd / 8) :=
      calc ch = ch * 1 := (Nat.mul_one ch).symm
        _ ≤ ch * (bd / 8) := Nat.mul_le_mul_left ch hbps1
    omega
  have hbd2 : bd < 65536 := by
    rcases hbd with rfl | rfl | rfl | rfl <;> norm_num
  refine ⟨?_, ?_, ?_, ?_, ?_, ?_, ?_, ?_, ?_, ?_, ?_, ?_, ?_, ?_⟩
  · unfold createWavFile
    dsimp only
    rw [readBytes_four]
    rw [writeSamples_read_lt _ _ _ _ _ _ (by norm_num),
      writeSamples_read_lt _ _ _ _ _ _ (by norm_num),
      writeSamples_read_lt _ _ _ _ _ _ (by norm_num),
      writeSamples_read_lt _ _ _ _ _ _ (by norm_num)]
    simp only [writeString, writeChars, DataView.setUint32, DataView.setUint16,
      DataView.setByte, String.data]
    simp only [Nat.reduceAdd, Nat.reduceEqDiff, reduceIte]
    decide
  · unfold createWavFile readU32
    dsimp only
    rw [writeSamples_read_lt _ _ _ _ _ _ (by norm_num),
      writeSamples_read_lt _ _ _ _ _ _ (by norm_num),
      writeSamples_read_lt _ _ _ _ _ _ (by norm_num),
      writeSamples_read_lt _ _ _ _ _ _ (by norm_num)]
    simp only [writeString, writeChars, DataView.setUint32, DataView.setUint16,
      DataView.setByte, String.data]
    simp only [Nat.reduceAdd, Nat.reduceEqDiff, reduceIte]
    have hc : ((44 + samples.length * (bd / 8) : ℕ) : ℤ) - 8 =
        ((36 + samples.length * (bd / 8) : ℕ) : ℤ) := by
      push_cast
      ring
    rw [hc, cast_emod_toNat_4294967296]
    omega
  · unfold createWavFile
    dsimp only
    rw [readBytes_four]
    rw [writeSamples_read_lt _ _ _ _ _ _ (by norm_num),
      writeSamples_read_lt _ _ _ _ _ _ (by norm_num),
      writeSamples_read_lt _ _ _ _ _ _ (by norm_num),
      writeSamples_read_lt _ _ _ _ _ _ (by norm_num)]
    simp only [writeString, writeChars, DataView.setUint32, DataView.setUint16,
      DataView.setByte, String.data]
    simp only [Nat.reduceAdd, Nat.reduceEqDiff, reduceIte]
    decide
  · unfold createWavFile
    dsimp only
    rw [readBytes_four]
    rw [writeSamples_read_lt _ _ _ _ _ _ (by norm_num),
      writeSamples_read_lt _ _ _ _ _ _ (by norm_num),
      writeSamples_read_lt _ _ _ _ _ _ (by norm_num),
      writeSamples_read_lt _ _ _ _ _ _ (by norm_num)]
    simp only [writeString, writeChars, DataView.setUint32, DataView.setUint16,
      DataView.setByte, String.data]
    simp only [Nat.reduceAdd, Nat.reduceEqDiff, reduceIte]
    decide
  · unfold createWavFile readU32
    dsimp only
    rw [writeSamples_read_lt _ _ _ _ _ _ (by norm_num),
      writeSamples_read_lt _ _ _ _ _ _ (by norm_num),
      writeSamples_read_lt _ _ _ _ _ _ (by norm_num),
      writeSamples_read_lt _ _ _ _ _ _ (by norm_num)]
    simp only [writeString, writeChars, DataView.setUint32, DataView.setUint16,
      DataView.setByte, String.data]
    simp only [Nat.reduceAdd, Nat.reduceEqDiff, reduceIte]
    decide
  · unfold createWavFile readU16
    dsimp only
    rw [writeSamples_read_lt _ _ _ _ _ _ (by norm_num),
      writeSamples_read_lt _ _ _ _ _ _ (by norm_num)]
    simp only [writeString, writeChars, DataView.setUint32, DataView.setUint16,
      DataView.setByte, String.data]
    simp only [Nat.reduceAdd, Nat.reduceEqDiff, reduceIte]
    decide
  · unfold createWavFile readU16
    dsimp only
    rw [writeSamples_read_lt _ _ _ _ _ _ (by norm_num),
      writeSamples_read_lt _ _ _ _ _ _ (by norm_num)]
    simp only [writeString, writeChars, DataView.setUint32, DataView.setUint16,
      DataView.setByte, String.data]
    simp only [Nat.reduceAdd, Nat.reduceEqDiff, reduceIte]
    rw [cast_emod_toNat_65536]
    omega
  · unfold createWavFile readU32
    dsimp only
    rw [writeSamples_read_lt _ _ _ _ _ _ (by norm_num),
      writeSamples_read_lt _ _ _ _ _ _ (by norm_num),
      writeSamples_read_lt _ _ _ _ _ _ (by norm_num),
      writeSamples_read_lt _ _ _ _ _ _ (by norm_num)]
    simp only [writeString, writeChars, DataView.setUint32, DataView.setUint16,
      DataView.setByte, String.data]
    simp only [Nat.reduceAdd, Nat.reduceEqDiff, reduceIte]
    rw [cast_emod_toNat_4294967296]
    omega
  · unfold createWavFile readU32
    dsimp only
    rw [writeSamples_read_lt _ _ _ _ _ _ (by norm_num),
      writeSamples_read_lt _ _ _ _ _ _ (by norm_num),
      writeSamples_read_lt _ _ _ _ _ _ (by norm_num),
      writeSamples_read_lt _ _ _ _ _ _ (by norm_num)]
    simp only [writeString, writeChars, DataView.setUint32, DataView.setUint16,
      DataView.setByte, String.data]
    simp only [Nat.reduceAdd, Nat.reduceEqDiff, reduceIte]
    rw [cast_emod_toNat_4294967296]
    omega
  · unfold createWavFile readU16
    dsimp only
    rw [writeSamples_read_lt _ _ _ _ _ _ (by norm_num),
      writeSamples_read_lt _ _ _ _ _ _ (by norm_num)]
    simp only [writeString, writeChars, DataView.setUint32, DataView.setUint16,
      DataView.setByte, String.data]
    simp only [Nat.reduceAdd, Nat.reduceEqDiff, reduceIte]
    rw [cast_emod_toNat_65536]
    omega
  · unfold createWavFile readU16
    dsimp only
    rw [writeSamples_read_lt _ _ _ _ _ _ (by norm_num),
      writeSamples_read_lt _ _ _ _ _ _ (by norm_num)]
    simp only [writeString, writeChars, DataView.setUint32, DataView.setUint16,
      DataView.setByte, String.data]
    simp only [Nat.reduceAdd, Nat.reduceEqDiff, reduceIte]
    rw [cast_emod_toNat_65536]
    omega
  · unfold createWavFile
    dsimp only
    rw [readBytes_four]
    rw [writeSamples_read_lt _ _ _ _ _ _ (by norm_num),
      writeSamples_read_lt _ _ _ _ _ _ (by norm_num),
      writeSamples_read_lt _ _ _ _ _ _ (by norm_num),
      writeSamples_read_lt _ _ _ _ _ _ (by norm_num)]
    simp only [writeString, writeChars, DataView.setUint32, DataView.setUint16,
      DataView.setByte, String.data]
    simp only [Nat.reduceAdd, Nat.reduceEqDiff, reduceIte]
    decide
  · unfold createWavFile readU32
    dsimp only
    rw [writeSamples_read_lt _ _ _ _ _ _ (by norm_num),
      writeSamples_read_lt _ _ _ _ _ _ (by norm_num),
      writeSamples_read_lt _ _ _ _ _ _ (by norm_num),
      writeSamples_read_lt _ _ _ _ _ _ (by norm_num)]
    simp only [writeString, writeChars, DataView.setUint32, DataView.setUint16,
      DataView.setByte, String.data]
    simp only [Nat.reduceAdd, Nat.reduceEqDiff, reduceIte]
    rw [cast_emod_toNat_4294967296]
    omega
  · intro i s hget
    constructor
    · unfold createWavFile
      dsimp only
      exact writeSamples_read_at samples _ 44 i s bd (bd / 8) hget
        (by rcases hbd with rfl | rfl | rfl | rfl <;> norm_num)
    · exact (sampleBytesSpec_clamp bd s).symm

/-- C8 witness: the theorem applied to a concrete stereo 16-bit export at
44.1 kHz with two samples (one of which is out of range and clamped). -/
theorem createWavFile_header_layout_witness :
    readU16 (createWavFile [3 / 2, -(7 / 4)] ⟨44100, 16, 2⟩) 22 = 2 ∧
    readU32 (createWavFile [3 / 2, -(7 / 4)] ⟨44100, 16, 2⟩) 24 = 44100 ∧
    readBytes (createWavFile [3 / 2, -(7 / 4)] ⟨44100, 16, 2⟩) 0 4 =
      [82, 73, 70, 70] := by
  have h := createWavFile_header_layout [3 / 2, -(7 / 4)] ⟨44100, 16, 2⟩
    (by norm_num) (by norm_num) (by norm_num) (by norm_num) (by norm_num)
  exact ⟨h.2.2.2.2.2.2.1, h.2.2.2.2.2.2.2.1, h.1⟩

end AudioExporter

end Music
